import Mathlib

/-!
# Det<T>::Compute (onnxruntime/core/providers/cpu/math/det.cc)

A shallow embedding of the CPU `Det` kernel and of the part of the kernel
dispatch protocol it touches (status values, the kernel context, tensors),
followed by the properties of the kernel.

Conventions of the embedding
* `int64_t` values are `Int`; C `int` values are `Int` inside the range of an
  `int`: `static_cast_int` narrows into it, and an `int` multiplication whose
  result leaves it is undefined behaviour; the kernel is the 32-bit instance.
* A buffer is a list; a pointer into the input buffer is an element offset.
* A call either returns a `Status` together with the kernel context it leaves
  behind, or the source gives it no defined result (`Fault`): a failed
  `ORT_ENFORCE` throws, and an access outside a buffer or a signed overflow is
  undefined behaviour, after which nothing is guaranteed, a success status
  included.
* The element type `T` and Eigen's `determinant()` are parameters.
-/

namespace onnxruntime

/-! ## Status -/

/-- The category argument of the two `Status(...)` constructions in det.cc. -/
inductive StatusCategory
  | ONNXRUNTIME
  deriving DecidableEq, Repr

/-- Modelled from the spec: the failure tags of `Status` (section 3 of the
specification: invalid-argument, unsupported, runtime-failure, out-of-memory);
the `Status` class itself is declared in core/common/status.h, which is not
part of the sources at hand.  `INVALID_ARGUMENT` is the tag det.cc names. -/
inductive StatusCode
  | INVALID_ARGUMENT
  | UNSUPPORTED
  | RUNTIME_FAILURE
  | OUT_OF_MEMORY
  deriving DecidableEq, Repr

/-- Modelled from the spec: `Status` is success, or a tagged failure carrying a
human-readable message (section 3).  `Status.OK` is `Status::OK()`,
`Status.failure c k m` is `Status(c, k, m)`. -/
inductive Status
  | OK
  | failure (category : StatusCategory) (code : StatusCode) (msg : String)
  deriving DecidableEq, Repr

/-- The member `Status::IsOK()`. -/
def Status.IsOK : Status → Bool
  | .OK => true
  | .failure _ _ _ => false

/-- Ways in which a call has no defined result: `enforce` is an exception thrown
by `ORT_ENFORCE`; `out_of_bounds` (an access outside a buffer) and
`signed_overflow` (an `int` operation whose result is not an `int`) are
undefined behaviour, after which the program may crash or return anything. -/
inductive Fault
  | enforce
  | out_of_bounds
  | signed_overflow
  deriving DecidableEq, Repr

/-! ## Machine integers

The width of the C type `int` is fixed by the platform, not by the language.
The embedding takes it as a parameter `int_bound`: an `int` holds the integers
of `[-int_bound, int_bound)`.  The kernel proper is the instance at
`int_bound = 2^31`, the 32-bit `int` of every platform the runtime is built
for. -/

/-- The conversion `static_cast<int>(x)` for an `int` of the range
`[-int_bound, int_bound)`: the value of `x` reduced into that range
(two's complement). -/
def static_cast_int_w (int_bound x : Int) : Int :=
  (x + int_bound) % (2 * int_bound) - int_bound

/-- Multiplication `a * b` of two `int` operands: the product when it is an
`int`, undefined behaviour (signed overflow) when it is not. -/
def int_mul_w (int_bound a b : Int) : Except Fault Int :=
  if -int_bound ≤ a * b ∧ a * b < int_bound then .ok (a * b) else .error .signed_overflow

/-- The conversion `static_cast<int>(x)` to a 32-bit `int`. -/
def static_cast_int (x : Int) : Int :=
  static_cast_int_w 2147483648 x

/-- Multiplication of two 32-bit `int` operands. -/
def int_mul (a b : Int) : Except Fault Int :=
  int_mul_w 2147483648 a b

/-! ## Tensors and the kernel context -/

/-- A tensor: its shape (`int64_t` dimensions) and its element buffer.  Input
tensors are `Tensor T`; an output tensor is a `Tensor (Option T)`, a cell being
`none` until the kernel has stored a value in it. -/
structure Tensor (α : Type) where
  shape : List Int
  data : List α

/-- The member `TensorShape::Size()`: the number of elements a shape
describes (the empty shape is a scalar and describes one element). -/
def TensorShape.Size (shape : List Int) : Int :=
  shape.prod

/-- The subscript `X_shape[i]` with an `int` index; an index outside the shape
is an access outside a buffer. -/
def TensorShape.dim (shape : List Int) (i : Int) : Except Fault Int :=
  if 0 ≤ i then
    match shape[i.toNat]? with
    | some d => .ok d
    | none => .error .out_of_bounds
  else .error .out_of_bounds

/-- What it takes for a pair of a shape and a buffer to be a tensor the runtime
can hand to a kernel: the rank fits an `int`, every dimension is a non-negative
`int64_t`, the buffer holds exactly `Size()` elements, and the buffer of
4-byte `float` elements (the only registered instance is `Det<float>`) has a
byte size that fits `size_t`. -/
def Tensor.Valid {α : Type} (X : Tensor α) : Prop :=
  X.shape.length < 2147483648 ∧
  (∀ d ∈ X.shape, 0 ≤ d ∧ d < 9223372036854775808) ∧
  (X.data.length : Int) = TensorShape.Size X.shape ∧
  4 * X.data.length < 18446744073709551616

instance {α : Type} (X : Tensor α) : Decidable X.Valid := by
  unfold Tensor.Valid; infer_instance

/-- Modelled from the spec: the kernel context (`OpKernelContext`, declared
outside the sources at hand) through which a kernel reaches its "resolved tensor
views bound to concrete buffers for this call" (section 4.4): numbered input
slots and numbered output slots.  An empty slot is `none`. -/
structure OpKernelContext (T : Type) where
  inputs : Nat → Option (Tensor T)
  outputs : Nat → Option (Tensor (Option T))

/-- Modelled from the spec: `context->Input<Tensor>(index)`, the tensor bound to
an input slot, `none` standing for the null pointer. -/
def OpKernelContext.Input {T : Type} (context : OpKernelContext T) (index : Nat) :
    Option (Tensor T) :=
  context.inputs index

/-- Modelled from the spec: the buffer `context->Output(index, shape)` binds to
an output slot: `shape.Size()` cells, none of them written yet.  A shape with a
negative dimension describes no buffer and the request fails. -/
def OpKernelContext.Output {T : Type} (_context : OpKernelContext T) (_index : Nat)
    (shape : List Int) : Except Fault (Tensor (Option T)) :=
  if shape.all (fun d => decide (0 ≤ d)) then
    .ok ⟨shape, List.replicate (TensorShape.Size shape).toNat none⟩
  else .error .enforce

/-- The kernel context once the tensor `Y` obtained from
`context->Output(index, ...)` holds what the kernel stored through
`Y->MutableData<T>()`. -/
def OpKernelContext.with_output {T : Type} (context : OpKernelContext T) (index : Nat)
    (Y : Tensor (Option T)) : OpKernelContext T :=
  { context with outputs := Function.update context.outputs index (some Y) }

/-! ## The kernel -/

/-- The view `ConstEigenMatrixMapRowMajor<T>(matrix_ptr, rows, cols)`: the
`rows * cols` elements of the buffer from offset `matrix_ptr` on, entry
`(i, j)` being the element at `matrix_ptr + i * cols + j`.  Neither det.cc nor
Eigen checks the range: a view with a negative dimension or with elements
outside the buffer is read all the same, which is undefined behaviour and is
recorded here as `Fault.out_of_bounds`. -/
def ConstEigenMatrixMapRowMajor {T : Type} (buf : List T) (matrix_ptr rows cols : Int) :
    Except Fault (Fin rows.toNat → Fin cols.toNat → T) :=
  if h : 0 ≤ rows ∧ 0 ≤ cols ∧ 0 ≤ matrix_ptr ∧
      matrix_ptr.toNat + rows.toNat * cols.toNat ≤ buf.length then
    .ok (fun i j => buf.get ⟨matrix_ptr.toNat + (i.val * cols.toNat + j.val), by
      have hi := i.isLt
      have hj := j.isLt
      have h1 : i.val * cols.toNat + j.val < (i.val + 1) * cols.toNat := by
        rw [Nat.add_mul, Nat.one_mul]; omega
      have h2 : (i.val + 1) * cols.toNat ≤ rows.toNat * cols.toNat :=
        Nat.mul_le_mul_right _ hi
      omega⟩)
  else .error .out_of_bounds

/-- The lambda `get_determinant` of `Det<T>::Compute` (it captures
`matrix_dim`): the determinant of the `matrix_dim` by `matrix_dim` row-major
view at `matrix_ptr`.  `determinant` stands for Eigen's `determinant()`. -/
def get_determinant {T : Type} (determinant : (n : Nat) → (Fin n → Fin n → T) → T)
    (X_data : List T) (matrix_dim : Int) (matrix_ptr : Int) : Except Fault T :=
  match ConstEigenMatrixMapRowMajor X_data matrix_ptr matrix_dim matrix_dim with
  | .ok one_eigen_mat => .ok (determinant matrix_dim.toNat one_eigen_mat)
  | .error e => .error e

/-- The store `*Y_data = v` through a pointer at cell `Y_data` of the output
buffer. -/
def store {T : Type} (Y : List (Option T)) (Y_data : Nat) (v : T) :
    Except Fault (List (Option T)) :=
  if Y_data < Y.length then .ok (Y.set Y_data (some v)) else .error .out_of_bounds

/-- The loop `for (int b = 0; b < batch_size; ++b)` of the batched branch, from
the state in which `remaining = batch_size - b` iterations are still to run:
each iteration reads the matrix at `X_data + (b * num_matrix_elems)` and stores
its determinant through `Y_data`, which it then advances. -/
def batch_loop_w {T : Type} (int_bound : Int)
    (determinant : (n : Nat) → (Fin n → Fin n → T) → T)
    (X_data : List T) (matrix_dim num_matrix_elems : Int) :
    (remaining : Nat) → (b : Int) → (Y_data : Nat) → List (Option T) →
      Except Fault (List (Option T))
  | 0, _, _, Y => .ok Y
  | remaining + 1, b, Y_data, Y =>
    match int_mul_w int_bound b num_matrix_elems with
    | .error e => .error e
    | .ok offset =>
      match get_determinant determinant X_data matrix_dim offset with
      | .error e => .error e
      | .ok v =>
        match store Y Y_data v with
        | .error e => .error e
        | .ok Y' =>
          batch_loop_w int_bound determinant X_data matrix_dim num_matrix_elems remaining
            (b + 1) (Y_data + 1) Y'

/-- The kernel `Det<T>::Compute(OpKernelContext* context)`, for an `int` of the
range `[-int_bound, int_bound)`. -/
def Det.Compute_w {T : Type} (int_bound : Int)
    (determinant : (n : Nat) → (Fin n → Fin n → T) → T)
    (context : OpKernelContext T) : Except Fault (Status × OpKernelContext T) :=
  match context.Input 0 with
  | none => .error .enforce
  | some X =>
    let X_shape := X.shape
    let X_num_dims := static_cast_int_w int_bound (X_shape.length : Int)
    if X_num_dims < 2 then
      .ok (.failure .ONNXRUNTIME .INVALID_ARGUMENT
        "Input tensor should have a rank of at least 2", context)
    else
      match TensorShape.dim X_shape (X_num_dims - 1),
          TensorShape.dim X_shape (X_num_dims - 2) with
      | .error e, _ => .error e
      | .ok _, .error e => .error e
      | .ok last, .ok prev =>
        if last ≠ prev then
          .ok (.failure .ONNXRUNTIME .INVALID_ARGUMENT
            "Matrix dimensions are not equal. Square matrix is expected", context)
        else
          let X_data := X.data
          let matrix_dim := static_cast_int_w int_bound last
          if X_num_dims = 2 then
            match context.Output 0 [] with
            | .error e => .error e
            | .ok Y =>
              match get_determinant determinant X_data matrix_dim 0 with
              | .error e => .error e
              | .ok v =>
                match store Y.data 0 v with
                | .error e => .error e
                | .ok Y_buf => .ok (Status.OK, context.with_output 0 ⟨Y.shape, Y_buf⟩)
          else
            match TensorShape.dim X_shape 0 with
            | .error e => .error e
            | .ok d0 =>
              let batch_size := static_cast_int_w int_bound d0
              match int_mul_w int_bound matrix_dim matrix_dim with
              | .error e => .error e
              | .ok num_matrix_elems =>
                match context.Output 0 [batch_size] with
                | .error e => .error e
                | .ok Y =>
                  match batch_loop_w int_bound determinant X_data matrix_dim
                      num_matrix_elems batch_size.toNat 0 0 Y.data with
                  | .error e => .error e
                  | .ok Y_buf => .ok (Status.OK, context.with_output 0 ⟨Y.shape, Y_buf⟩)

/-- The kernel `Det<T>::Compute(OpKernelContext* context)` with the 32-bit `int`
of the platforms the runtime is built for. -/
def Det.Compute {T : Type} (determinant : (n : Nat) → (Fin n → Fin n → T) → T)
    (context : OpKernelContext T) : Except Fault (Status × OpKernelContext T) :=
  Det.Compute_w 2147483648 determinant context

/-! ## Test data -/

/-- An exact determinant on integer matrices, used as the `determinant`
argument where the kernel is run on concrete data. -/
def det_int (n : Nat) (A : Fin n → Fin n → Int) : Int :=
  Matrix.det (Matrix.of A)

/-- A kernel context holding `X` as input 0 and nothing else. -/
def context_of {T : Type} (X : Tensor T) : OpKernelContext T :=
  { inputs := fun i => if i = 0 then some X else none, outputs := fun _ => none }

/-- What a test observes of a call: the status, and the shape and buffer of
output 0 afterwards. -/
def observe {T : Type} (r : Except Fault (Status × OpKernelContext T)) :
    Except Fault (Status × Option (List Int × List (Option T))) :=
  match r with
  | .error e => .error e
  | .ok (st, context) => .ok (st, (context.outputs 0).map (fun Y => (Y.shape, Y.data)))

/-- The number of cells of an output tensor the kernel has stored into. -/
def written {T : Type} (Y : Tensor (Option T)) : Nat :=
  (Y.data.filter Option.isSome).length

/-- What a test observes of the size of output 0 after a call: the status and
the number of cells stored into. -/
def observe_written {T : Type} (r : Except Fault (Status × OpKernelContext T)) :
    Except Fault (Status × Option Nat) :=
  match r with
  | .error e => .error e
  | .ok (st, context) => .ok (st, (context.outputs 0).map written)

/-- What a test observes of the extent of output 0 after a call: the status, the
shape of output 0 and the number of its elements. -/
def observe_extent {T : Type} (r : Except Fault (Status × OpKernelContext T)) :
    Except Fault (Status × Option (List Int × Nat)) :=
  match r with
  | .error e => .error e
  | .ok (st, context) => .ok (st, (context.outputs 0).map (fun Y => (Y.shape, Y.data.length)))

/-- A rank-1 tensor. -/
def X_vector : Tensor Int := ⟨[3], [1, 2, 3]⟩

/-- A 2 by 3 matrix. -/
def X_not_square : Tensor Int := ⟨[2, 3], [1, 2, 3, 4, 5, 6]⟩

/-- A 2 by 2 matrix. -/
def X_square : Tensor Int := ⟨[2, 2], [1, 2, 3, 4]⟩

/-- A batch of two 2 by 2 matrices. -/
def X_batch : Tensor Int := ⟨[2, 2, 2], [1, 2, 3, 4, 5, 6, 7, 9]⟩

/-- A tensor of shape `[2, 3, 2, 2]`: six 2 by 2 matrices. -/
def X_two_batch_dims : Tensor Int :=
  ⟨[2, 3, 2, 2], [1, 0, 0, 1, 2, 0, 0, 1, 3, 0, 0, 1, 4, 0, 0, 1, 5, 0, 0, 1, 6, 0, 0, 1]⟩

/-- A tensor of shape `[1, 0, 1, 1]`: it has no element. -/
def X_empty_batch_dim : Tensor Int := ⟨[1, 0, 1, 1], []⟩

/-- A tensor of shape `[2^32, 0, 0]`: it has no element. -/
def X_wide : Tensor Int := ⟨[4294967296, 0, 0], []⟩

/-- A tensor of shape `[2^32 + 1, 0, 0]`: it has no element. -/
def X_wide_one : Tensor Int := ⟨[4294967297, 0, 0], []⟩

/-! ## Basic facts about the embedding -/

/-- A value inside the range of an `int` is its own conversion. -/
theorem static_cast_int_w_of_range (int_bound x : Int) (h0 : -int_bound ≤ x)
    (h1 : x < int_bound) : static_cast_int_w int_bound x = x := by
  unfold static_cast_int_w
  rw [Int.emod_eq_of_lt (by omega) (by omega)]
  omega

theorem dim_natCast (s : List Int) (i : Nat) (d : Int) (h : s[i]? = some d) :
    TensorShape.dim s (i : Int) = .ok d := by
  simp [TensorShape.dim, h]

theorem dim_neg (s : List Int) (i : Int) (h : i < 0) :
    TensorShape.dim s i = .error .out_of_bounds := by
  simp [TensorShape.dim, h]

/-- On a buffer that holds the `n * n` elements from offset `p` on,
`get_determinant` returns Eigen's determinant of the matrix whose entry
`(i, j)` is the element at `p + i * n + j`. -/
theorem get_determinant_ok {T : Type} (determinant : (n : Nat) → (Fin n → Fin n → T) → T)
    (buf : List T) (n p : Nat) (h : p + n * n ≤ buf.length) :
    ∃ A : Fin n → Fin n → T,
      (∀ i j, buf[p + (i.val * n + j.val)]? = some (A i j)) ∧
      get_determinant determinant buf (n : Int) (p : Int) = .ok (determinant n A) := by
  have hc : 0 ≤ (n : Int) ∧ 0 ≤ (n : Int) ∧ 0 ≤ (p : Int) ∧
      (p : Int).toNat + (n : Int).toNat * (n : Int).toNat ≤ buf.length := by
    refine ⟨Int.natCast_nonneg n, Int.natCast_nonneg n, Int.natCast_nonneg p, ?_⟩
    simpa using h
  refine ⟨fun i j => buf.get ⟨p + (i.val * n + j.val), ?_⟩, ?_, ?_⟩
  · have hi := i.isLt
    have hj := j.isLt
    have h1 : i.val * n + j.val < (i.val + 1) * n := by
      rw [Nat.add_mul, Nat.one_mul]; omega
    have h2 : (i.val + 1) * n ≤ n * n := Nat.mul_le_mul_right _ hi
    omega
  · intro i j
    simp [List.getElem?_eq_getElem]
  · unfold get_determinant ConstEigenMatrixMapRowMajor
    rw [dif_pos hc]
    rfl

/-- The three facts the kernel derives from a shape that ends in two
dimensions `a`, `b`, when the rank fits an `int`. -/
theorem shape_tail_facts (int_bound : Int) (pre : List Int) (a b : Int)
    (hlen : ((pre ++ [a, b]).length : Int) < int_bound) :
    static_cast_int_w int_bound ((pre ++ [a, b]).length : Int)
      = ((pre.length + 2 : Nat) : Int) ∧
    TensorShape.dim (pre ++ [a, b]) (((pre.length + 2 : Nat) : Int) - 1) = .ok b ∧
    TensorShape.dim (pre ++ [a, b]) (((pre.length + 2 : Nat) : Int) - 2) = .ok a := by
  have hl : (pre ++ [a, b]).length = pre.length + 2 := by simp
  refine ⟨?_, ?_, ?_⟩
  · rw [hl] at hlen ⊢
    apply static_cast_int_w_of_range <;> omega
  · have e : (((pre.length + 2 : Nat) : Int) - 1) = ((pre.length + 1 : Nat) : Int) := by
      push_cast; omega
    rw [e]
    apply dim_natCast
    rw [List.getElem?_append_right (by omega)]
    simp
  · have e : (((pre.length + 2 : Nat) : Int) - 2) = ((pre.length : Nat) : Int) := by
      push_cast; omega
    rw [e]
    apply dim_natCast
    rw [List.getElem?_append_right (by omega)]
    simp

/-- Rank below 2: the rank failure, with the context as it was. -/
theorem compute_w_rank_lt_two {T : Type} (int_bound : Int) (hb : 2 ≤ int_bound)
    (determinant : (n : Nat) → (Fin n → Fin n → T) → T)
    (context : OpKernelContext T) (X : Tensor T) (hX : context.Input 0 = some X)
    (hr : X.shape.length < 2) :
    Det.Compute_w int_bound determinant context =
      .ok (.failure .ONNXRUNTIME .INVALID_ARGUMENT
        "Input tensor should have a rank of at least 2", context) := by
  have h : static_cast_int_w int_bound (X.shape.length : Int) < 2 := by
    rw [static_cast_int_w_of_range] <;> omega
  unfold Det.Compute_w
  rw [hX]
  simp [h]

/-- Rank at least 2 with different last two dimensions: the squareness
failure, with the context as it was. -/
theorem compute_w_not_square {T : Type} (int_bound : Int)
    (determinant : (n : Nat) → (Fin n → Fin n → T) → T)
    (context : OpKernelContext T) (X : Tensor T) (pre : List Int) (a b : Int)
    (hX : context.Input 0 = some X) (hshape : X.shape = pre ++ [a, b])
    (hlen : (X.shape.length : Int) < int_bound) (hne : b ≠ a) :
    Det.Compute_w int_bound determinant context =
      .ok (.failure .ONNXRUNTIME .INVALID_ARGUMENT
        "Matrix dimensions are not equal. Square matrix is expected", context) := by
  rw [hshape] at hlen
  obtain ⟨h1, h2, h3⟩ := shape_tail_facts int_bound pre a b hlen
  have hge : ¬ (((pre.length + 2 : Nat) : Int) < 2) := by push_cast; omega
  unfold Det.Compute_w
  rw [hX]
  simp only [hshape, h1, h2, h3, hge, if_false]
  simp [hne]

/-- Rank 2: success, output 0 a scalar holding the determinant of the whole
input buffer read row-major. -/
theorem compute_w_rank2 {T : Type} (int_bound : Int)
    (determinant : (n : Nat) → (Fin n → Fin n → T) → T)
    (context : OpKernelContext T) (X : Tensor T) (M : Nat)
    (hX : context.Input 0 = some X) (hshape : X.shape = [(M : Int), (M : Int)])
    (hlen : X.data.length = M * M) (hb : 2 < int_bound) (hM : (M : Int) < int_bound) :
    ∃ A : Fin M → Fin M → T,
      (∀ i j, X.data[i.val * M + j.val]? = some (A i j)) ∧
      Det.Compute_w int_bound determinant context =
        .ok (Status.OK, context.with_output 0 ⟨[], [some (determinant M A)]⟩) := by
  obtain ⟨A, hA, hdet⟩ := get_determinant_ok determinant X.data M 0 (by omega)
  refine ⟨A, by simpa using hA, ?_⟩
  have hshape' : X.shape = [] ++ [(M : Int), (M : Int)] := by simpa using hshape
  obtain ⟨h1, h2, h3⟩ := shape_tail_facts int_bound [] (M : Int) (M : Int)
    (by simp; omega)
  have hge : ¬ ((((([] : List Int).length + 2 : Nat)) : Int) < 2) := by simp
  have hcast : static_cast_int_w int_bound (M : Int) = (M : Int) := by
    apply static_cast_int_w_of_range <;> omega
  have hout : context.Output 0 [] = .ok ⟨[], [(none : Option T)]⟩ := by
    simp [OpKernelContext.Output, TensorShape.Size]
  simp only [Nat.cast_zero] at hdet
  unfold Det.Compute_w
  rw [hX]
  simp only [hshape', h1, h2, h3, hge, if_false, hcast, hout, hdet]
  simp [store]

/-- A product inside the range of an `int` is what the `int` multiplication
returns. -/
theorem int_mul_w_of_range (int_bound a b : Int) (h0 : -int_bound ≤ a * b)
    (h1 : a * b < int_bound) : int_mul_w int_bound a b = .ok (a * b) := by
  unfold int_mul_w
  rw [if_pos ⟨h0, h1⟩]

/-- Whenever an `int` multiplication has a result, it is the product. -/
theorem int_mul_w_inv (int_bound a b r : Int) (h : int_mul_w int_bound a b = .ok r) :
    r = a * b := by
  unfold int_mul_w at h
  split at h
  · simp only [Except.ok.injEq] at h
    exact h.symm
  · exact absurd h (by simp)

/-- The batched loop runs to completion when every matrix it addresses lies in
the input buffer and every offset it forms fits an `int`: it keeps the length
of the output buffer, stores in cell `Y_data + j` the determinant of the matrix
at offset `(b + j) * (M * M)`, and leaves the other cells alone. -/
theorem batch_loop_w_ok {T : Type} (int_bound : Int)
    (determinant : (n : Nat) → (Fin n → Fin n → T) → T)
    (X_data : List T) (M : Nat) :
    ∀ (k b yi : Nat) (Y : List (Option T)),
      (b + k) * (M * M) ≤ X_data.length →
      (∀ j, j < k → (((b + j) * (M * M) : Nat) : Int) < int_bound) →
      yi + k ≤ Y.length →
      ∃ Y', batch_loop_w int_bound determinant X_data (M : Int) ((M * M : Nat) : Int)
              k (b : Int) yi Y = .ok Y' ∧
        Y'.length = Y.length ∧
        (∀ j, j < k → ∃ A : Fin M → Fin M → T,
          (∀ r c, X_data[(b + j) * (M * M) + (r.val * M + c.val)]? = some (A r c)) ∧
          Y'[yi + j]? = some (some (determinant M A))) ∧
        (∀ i, i < yi ∨ yi + k ≤ i → Y'[i]? = Y[i]?) := by
  intro k
  induction k with
  | zero =>
    intro b yi Y _ _ _
    exact ⟨Y, rfl, rfl, fun j hj => absurd hj (Nat.not_lt_zero j), fun _ _ => rfl⟩
  | succ k ih =>
    intro b yi Y hbuf hfit hY
    have hle : (b + 1) * (M * M) ≤ (b + (k + 1)) * (M * M) :=
      Nat.mul_le_mul_right _ (by omega)
    have hb : b * (M * M) + M * M ≤ X_data.length := by
      have e : (b + 1) * (M * M) = b * (M * M) + M * M := by ring
      omega
    obtain ⟨A, hA, hdet⟩ := get_determinant_ok determinant X_data M (b * (M * M)) hb
    have hfit0 : (((b * (M * M) : Nat)) : Int) < int_bound := by
      have := hfit 0 (by omega)
      simpa using this
    have hoff : int_mul_w int_bound (b : Int) ((M * M : Nat) : Int)
        = .ok ((b * (M * M) : Nat) : Int) := by
      rw [Nat.cast_mul b (M * M)]
      apply int_mul_w_of_range
      · rw [← Nat.cast_mul b (M * M)]; omega
      · rw [← Nat.cast_mul b (M * M)]; exact hfit0
    have hyi : yi < Y.length := by omega
    obtain ⟨Y', hrun, hlen, hval, hrest⟩ :=
      ih (b + 1) (yi + 1) (Y.set yi (some (determinant M A)))
        (by rw [show b + 1 + k = b + (k + 1) by omega]; exact hbuf)
        (by
          intro j hj
          have := hfit (j + 1) (by omega)
          rw [show b + 1 + j = b + (j + 1) by omega]
          exact this)
        (by rw [List.length_set]; omega)
    have hnext : ((b : Int) + 1) = ((b + 1 : Nat) : Int) := by push_cast; rfl
    refine ⟨Y', ?_, ?_, ?_, ?_⟩
    · rw [batch_loop_w, hoff]
      simp only [hdet, store, hyi, if_true]
      rw [hnext]
      exact hrun
    · rw [hlen, List.length_set]
    · intro j hj
      cases j with
      | zero =>
        refine ⟨A, by simpa using hA, ?_⟩
        rw [Nat.add_zero, hrest yi (Or.inl (by omega))]
        exact List.getElem?_set_self hyi
      | succ j =>
        obtain ⟨A', hA', hY'⟩ := hval j (by omega)
        refine ⟨A', ?_, ?_⟩
        · rw [show b + (j + 1) = b + 1 + j by omega]; exact hA'
        · rw [show yi + (j + 1) = yi + 1 + j by omega]; exact hY'
    · intro i hi
      rw [hrest i (by omega)]
      exact List.getElem?_set_ne (by omega)

/-- Whenever the batched loop runs to completion it has kept the length of the
output buffer, stored a value in each of the cells `Y_data .. Y_data + k - 1`
and left the other cells alone. -/
theorem batch_loop_w_inv {T : Type} (int_bound : Int)
    (determinant : (n : Nat) → (Fin n → Fin n → T) → T)
    (X_data : List T) (m e : Int) :
    ∀ (k : Nat) (b : Int) (yi : Nat) (Y Y' : List (Option T)),
      batch_loop_w int_bound determinant X_data m e k b yi Y = .ok Y' →
      Y'.length = Y.length ∧
      (∀ i, yi ≤ i → i < yi + k → ∃ v, Y'[i]? = some (some v)) ∧
      (∀ i, i < yi ∨ yi + k ≤ i → Y'[i]? = Y[i]?) := by
  intro k
  induction k with
  | zero =>
    intro b yi Y Y' h
    simp only [batch_loop_w, Except.ok.injEq] at h
    subst h
    exact ⟨rfl, fun i h1 h2 => by omega, fun _ _ => rfl⟩
  | succ k ih =>
    intro b yi Y Y' h
    rw [batch_loop_w] at h
    split at h
    · exact absurd h (by simp)
    · split at h
      · exact absurd h (by simp)
      · rename_i v _
        unfold store at h
        by_cases hyi : yi < Y.length
        · simp only [hyi, if_true] at h
          obtain ⟨hlen, hval, hrest⟩ := ih _ _ _ _ h
          refine ⟨by rw [hlen, List.length_set], ?_, ?_⟩
          · intro i h1 h2
            by_cases hi : i = yi
            · subst hi
              refine ⟨v, ?_⟩
              rw [hrest i (Or.inl (by omega))]
              exact List.getElem?_set_self hyi
            · exact hval i (by omega) (by omega)
          · intro i hi
            rw [hrest i (by omega)]
            exact List.getElem?_set_ne (by omega)
        · simp only [hyi, if_false] at h
          exact absurd h (by simp)

/-- The batched branch: when `d0` fits an `int`, the two `int` multiplications
of the kernel do not overflow and `d0` matrices are present in the input
buffer, the call succeeds, output 0 has shape `[d0]`, and cell `b` holds the
determinant of the row-major matrix at offset `b * (M * M)`. -/
theorem compute_w_batched {T : Type} (int_bound : Int)
    (determinant : (n : Nat) → (Fin n → Fin n → T) → T)
    (context : OpKernelContext T) (X : Tensor T) (d0 M : Nat) (mid : List Int)
    (hX : context.Input 0 = some X)
    (hshape : X.shape = (d0 : Int) :: (mid ++ [(M : Int), (M : Int)]))
    (hlen : (X.shape.length : Int) < int_bound)
    (hd0 : (d0 : Int) < int_bound)
    (hsq : static_cast_int_w int_bound (M : Int) * static_cast_int_w int_bound (M : Int)
      < int_bound)
    (hoffs : ∀ b, b < d0 → (b : Int) *
      (static_cast_int_w int_bound (M : Int) * static_cast_int_w int_bound (M : Int))
        < int_bound)
    (hM : 0 < d0 → (M : Int) < int_bound)
    (hbuf : d0 * (M * M) ≤ X.data.length) :
    ∃ Y_buf : List (Option T),
      Det.Compute_w int_bound determinant context =
        .ok (Status.OK, context.with_output 0 ⟨[(d0 : Int)], Y_buf⟩) ∧
      Y_buf.length = d0 ∧
      ∀ b, b < d0 → ∃ A : Fin M → Fin M → T,
        (∀ r c, X.data[b * (M * M) + (r.val * M + c.val)]? = some (A r c)) ∧
        Y_buf[b]? = some (some (determinant M A)) := by
  have hshape' : X.shape = ((d0 : Int) :: mid) ++ [(M : Int), (M : Int)] := by
    simpa using hshape
  rw [hshape'] at hlen
  obtain ⟨h1, h2, h3⟩ := shape_tail_facts int_bound ((d0 : Int) :: mid) (M : Int) (M : Int) hlen
  have hge : ¬ ((((((d0 : Int) :: mid).length + 2 : Nat)) : Int) < 2) := by
    push_cast; omega
  have hne2 : ¬ ((((((d0 : Int) :: mid).length + 2 : Nat)) : Int) = 2) := by
    simp only [List.length_cons]; push_cast; omega
  have hdim0 : TensorShape.dim (((d0 : Int) :: mid) ++ [(M : Int), (M : Int)]) 0
      = .ok (d0 : Int) := by
    simp [TensorShape.dim]
  have hbatch : static_cast_int_w int_bound (d0 : Int) = (d0 : Int) := by
    apply static_cast_int_w_of_range <;> omega
  have hout : context.Output 0 [(d0 : Int)]
      = .ok ⟨[(d0 : Int)], List.replicate d0 (none : Option T)⟩ := by
    simp [OpKernelContext.Output, TensorShape.Size]
  have hpos : 0 < int_bound := by omega
  have hnum0 : int_mul_w int_bound (static_cast_int_w int_bound (M : Int))
      (static_cast_int_w int_bound (M : Int))
      = .ok (static_cast_int_w int_bound (M : Int) * static_cast_int_w int_bound (M : Int)) := by
    apply int_mul_w_of_range
    · have := mul_self_nonneg (static_cast_int_w int_bound (M : Int))
      omega
    · exact hsq
  rcases Nat.eq_zero_or_pos d0 with hz | hdpos
  · subst hz
    refine ⟨[], ?_, rfl, fun b hb => absurd hb (Nat.not_lt_zero b)⟩
    unfold Det.Compute_w
    rw [hX]
    simp only [hshape', h1, h2, h3, hge, hne2, if_false, hdim0, hbatch, hnum0, hout]
    simp [batch_loop_w]
  · have hMlt : (M : Int) < int_bound := hM hdpos
    have hcast : static_cast_int_w int_bound (M : Int) = (M : Int) := by
      apply static_cast_int_w_of_range <;> omega
    rw [hcast] at hnum0 hoffs
    have hnum : int_mul_w int_bound (M : Int) (M : Int) = .ok ((M * M : Nat) : Int) := by
      rw [hnum0]; push_cast; rfl
    obtain ⟨Y', hrun, hlenY, hval, _⟩ :=
      batch_loop_w_ok int_bound determinant X.data M d0 0 0
        (List.replicate d0 (none : Option T))
        (by simpa using hbuf)
        (by
          intro j hj
          have := hoffs j hj
          push_cast
          simpa using this)
        (by simp)
    refine ⟨Y', ?_, by simpa using hlenY, ?_⟩
    · simp only [Nat.cast_zero] at hrun
      unfold Det.Compute_w
      rw [hX]
      simp only [hshape', h1, h2, h3, hge, hne2, if_false, hdim0, hbatch, hout, hcast,
        hnum, Int.toNat_ofNat, hrun]
      simp
    · intro b hb
      obtain ⟨A, hA, hY⟩ := hval b hb
      exact ⟨A, by simpa using hA, by simpa using hY⟩

/-- A list with at least two entries is a list followed by two entries. -/
theorem list_split_last_two (l : List Int) (h : 2 ≤ l.length) :
    ∃ pre a b, l = pre ++ [a, b] := by
  rcases List.eq_nil_or_concat l with hl | ⟨l1, b, hl⟩
  · subst hl; simp at h
  · rcases List.eq_nil_or_concat l1 with hl1 | ⟨l2, a, hl1⟩
    · subst hl1; subst hl; simp at h
    · refine ⟨l2, a, b, ?_⟩
      rw [hl, hl1]
      simp

/-- A valid tensor of shape `[M, M]` holds `M * M` elements, and `M` fits a
32-bit `int`. -/
theorem valid_square_dim {α : Type} (X : Tensor α) (M : Nat)
    (hshape : X.shape = [(M : Int), (M : Int)]) (hv : X.Valid) :
    X.data.length = M * M ∧ M < 2147483648 := by
  obtain ⟨_, _, hsz, hbytes⟩ := hv
  rw [hshape] at hsz
  simp only [TensorShape.Size, List.prod_cons, List.prod_nil, mul_one] at hsz
  have h1 : X.data.length = M * M := by exact_mod_cast hsz
  refine ⟨h1, ?_⟩
  by_contra hc
  push_neg at hc
  have h2 : 2147483648 * 2147483648 ≤ M * M := Nat.mul_le_mul hc hc
  omega

/-- In a valid tensor that holds `d0 * (M * M)` elements with `0 < d0`, the
dimension `M` fits a 32-bit `int`. -/
theorem valid_matrix_dim_lt {α : Type} (X : Tensor α) (d0 M : Nat) (hv : X.Valid)
    (hcount : X.data.length = d0 * (M * M)) (hd : 0 < d0) : M < 2147483648 := by
  obtain ⟨_, _, _, hbytes⟩ := hv
  have h1 : M * M ≤ d0 * (M * M) := Nat.le_mul_of_pos_left _ hd
  by_contra hc
  push_neg at hc
  have h2 : 2147483648 * 2147483648 ≤ M * M := Nat.mul_le_mul hc hc
  omega

/-- A list of length `n` whose entry `i` is `f i` for every `i < n` is the list
`f 0, f 1, ..., f (n - 1)`. -/
theorem list_eq_ofFn {α : Type} (l : List α) (n : Nat) (f : Fin n → α)
    (hl : l.length = n) (h : ∀ i : Fin n, l[i.val]? = some (f i)) :
    l = List.ofFn f := by
  apply List.ext_getElem (by simp [hl])
  intro i h1 h2
  have hi : i < n := by omega
  have := h ⟨i, hi⟩
  rw [List.getElem?_eq_getElem h1] at this
  simp only [Option.some.injEq] at this
  simp [this]

/-- A buffer all of whose cells have been stored into has as many written cells
as it has cells. -/
theorem written_all {T : Type} (Y : List (Option T))
    (h : ∀ i, i < Y.length → ∃ v, Y[i]? = some (some v)) :
    (Y.filter Option.isSome).length = Y.length := by
  have hall : Y.filter Option.isSome = Y := by
    rw [List.filter_eq_self]
    intro a ha
    obtain ⟨n, hn⟩ := List.getElem?_of_mem ha
    have hlt : n < Y.length := by
      by_contra hc
      rw [List.getElem?_eq_none (by omega)] at hn
      exact absurd hn (by simp)
    obtain ⟨v, hv⟩ := h n hlt
    rw [hv] at hn
    cases hn
    rfl
  rw [hall]

/-- Every way in which the kernel returns a status, for an input whose rank fits
an `int`: the rank failure, the squareness failure, the scalar success of
rank 2, or the batched success, in which output 0 has `static_cast<int>(d0)`
cells and each of them has been stored into. -/
theorem compute_w_returns_cases {T : Type} (int_bound : Int) (hb : 2 ≤ int_bound)
    (determinant : (n : Nat) → (Fin n → Fin n → T) → T)
    (context : OpKernelContext T) (X : Tensor T) (hX : context.Input 0 = some X)
    (hlen : (X.shape.length : Int) < int_bound) (st : Status)
    (context' : OpKernelContext T)
    (h : Det.Compute_w int_bound determinant context = .ok (st, context')) :
    (X.shape.length < 2 ∧ context' = context ∧
      st = .failure .ONNXRUNTIME .INVALID_ARGUMENT
        "Input tensor should have a rank of at least 2") ∨
    (∃ pre a b, X.shape = pre ++ [a, b] ∧ b ≠ a ∧ context' = context ∧
      st = .failure .ONNXRUNTIME .INVALID_ARGUMENT
        "Matrix dimensions are not equal. Square matrix is expected") ∨
    (∃ M v, X.shape = [M, M] ∧ st = .OK ∧
      context' = context.with_output 0 ⟨[], [some v]⟩) ∨
    (∃ d0 mid M Y_buf, X.shape = d0 :: (mid ++ [M, M]) ∧ st = .OK ∧
      context' = context.with_output 0 ⟨[static_cast_int_w int_bound d0], Y_buf⟩ ∧
      0 ≤ static_cast_int_w int_bound d0 ∧
      Y_buf.length = (static_cast_int_w int_bound d0).toNat ∧
      ∀ i, i < Y_buf.length → ∃ v, Y_buf[i]? = some (some v)) := by
  by_cases hr : X.shape.length < 2
  · rw [compute_w_rank_lt_two int_bound hb determinant context X hX hr] at h
    simp only [Except.ok.injEq, Prod.mk.injEq] at h
    exact Or.inl ⟨hr, h.2.symm, h.1.symm⟩
  · obtain ⟨pre, a, b, hshape⟩ := list_split_last_two X.shape (by omega)
    by_cases hne : b ≠ a
    · rw [compute_w_not_square int_bound determinant context X pre a b hX hshape hlen hne] at h
      simp only [Except.ok.injEq, Prod.mk.injEq] at h
      exact Or.inr (Or.inl ⟨pre, a, b, hshape, hne, h.2.symm, h.1.symm⟩)
    · have hab : b = a := not_not.mp hne
      subst hab
      rw [hshape] at hlen
      obtain ⟨h1, h2, h3⟩ := shape_tail_facts int_bound pre b b hlen
      have hge : ¬ (((pre.length + 2 : Nat) : Int) < 2) := by push_cast; omega
      unfold Det.Compute_w at h
      rw [hX] at h
      simp only [hshape, h1, h2, h3, hge, if_false, ne_eq, not_true_eq_false] at h
      cases pre with
      | nil =>
        refine Or.inr (Or.inr (Or.inl ?_))
        have hout : context.Output 0 [] = .ok ⟨[], [(none : Option T)]⟩ := by
          simp [OpKernelContext.Output, TensorShape.Size]
        simp only [List.length_nil, Nat.zero_add, Nat.cast_ofNat, if_true, hout] at h
        split at h
        · exact absurd h (by simp)
        · rename_i v _
          simp only [store, List.length_singleton, Nat.lt_one_iff, if_true, List.set_cons_zero,
            Except.ok.injEq, Prod.mk.injEq] at h
          exact ⟨b, v, by simpa using hshape, h.1.symm, h.2.symm⟩
      | cons d0 mid =>
        refine Or.inr (Or.inr (Or.inr ?_))
        have hne2 : ¬ ((((d0 :: mid).length + 2 : Nat) : Int) = 2) := by
          simp only [List.length_cons]; push_cast; omega
        have hdim0 : TensorShape.dim (d0 :: mid ++ [b, b]) 0 = .ok d0 := by
          simp [TensorShape.dim]
        simp only [hne2, if_false, hdim0] at h
        split at h
        · exact absurd h (by simp)
        · by_cases hnn : 0 ≤ static_cast_int_w int_bound d0
          · have hout : context.Output 0 [static_cast_int_w int_bound d0]
                = .ok ⟨[static_cast_int_w int_bound d0],
                    List.replicate (static_cast_int_w int_bound d0).toNat
                      (none : Option T)⟩ := by
              simp [OpKernelContext.Output, TensorShape.Size, hnn]
            simp only [hout] at h
            split at h
            · exact absurd h (by simp)
            · rename_i Y_buf hrun
              simp only [Except.ok.injEq, Prod.mk.injEq] at h
              obtain ⟨hl, hval, _⟩ :=
                batch_loop_w_inv int_bound determinant X.data _ _ _ _ _ _ _ hrun
              rw [List.length_replicate] at hl
              refine ⟨d0, mid, b, Y_buf, by simpa using hshape, h.1.symm, h.2.symm, hnn,
                hl, ?_⟩
              intro i hi
              exact hval i (Nat.zero_le i) (by omega)
          · have hout : context.Output 0 [static_cast_int_w int_bound d0]
                = (.error .enforce : Except Fault (Tensor (Option T))) := by
              simp [OpKernelContext.Output, hnn]
            simp only [hout] at h
            exact absurd h (by simp)

/-- Whatever the input, a returned failure is an invalid-argument failure that
leaves the context as it was, and a returned success has changed output 0
only. -/
theorem compute_w_status_frame {T : Type} (int_bound : Int)
    (determinant : (n : Nat) → (Fin n → Fin n → T) → T)
    (context : OpKernelContext T) (st : Status) (context' : OpKernelContext T)
    (h : Det.Compute_w int_bound determinant context = .ok (st, context')) :
    (context' = context ∧ ∃ msg, st = .failure .ONNXRUNTIME .INVALID_ARGUMENT msg) ∨
    (st = .OK ∧ ∃ Y, context' = context.with_output 0 Y) := by
  unfold Det.Compute_w at h
  split at h
  · exact absurd h (by simp)
  · simp only at h
    split at h
    · simp only [Except.ok.injEq, Prod.mk.injEq] at h
      exact Or.inl ⟨h.2.symm, _, h.1.symm⟩
    · split at h
      · exact absurd h (by simp)
      · exact absurd h (by simp)
      · split at h
        · simp only [Except.ok.injEq, Prod.mk.injEq] at h
          exact Or.inl ⟨h.2.symm, _, h.1.symm⟩
        · split at h
          · split at h
            · exact absurd h (by simp)
            · split at h
              · exact absurd h (by simp)
              · split at h
                · exact absurd h (by simp)
                · simp only [Except.ok.injEq, Prod.mk.injEq] at h
                  exact Or.inr ⟨h.1.symm, _, h.2.symm⟩
          · split at h
            · exact absurd h (by simp)
            · split at h
              · exact absurd h (by simp)
              · split at h
                · exact absurd h (by simp)
                · split at h
                  · exact absurd h (by simp)
                  · simp only [Except.ok.injEq, Prod.mk.injEq] at h
                    exact Or.inr ⟨h.1.symm, _, h.2.symm⟩

/-! ## The claims

The theorems below are about `Det.Compute`, the kernel with the 32-bit `int`.
`X.Valid` says that `X` is a tensor the runtime can hand to the kernel. -/

/-- C2.  For an input tensor of rank 0 or 1 the kernel returns the
invalid-argument failure "Input tensor should have a rank of at least 2"
and leaves the context as it was, whatever the dimensions and the data are.
The squareness check is not reached: the dimension `X_shape[X_num_dims - 2]` it
would read lies outside the shape, and the call returns all the same. -/
theorem C2_rank_below_two_rejected {T : Type}
    (determinant : (n : Nat) → (Fin n → Fin n → T) → T)
    (context : OpKernelContext T) (X : Tensor T) (hX : context.Input 0 = some X)
    (hr : X.shape.length < 2) :
    Det.Compute determinant context =
      .ok (.failure .ONNXRUNTIME .INVALID_ARGUMENT
        "Input tensor should have a rank of at least 2", context) ∧
    TensorShape.dim X.shape (static_cast_int (X.shape.length : Int) - 2)
      = .error .out_of_bounds := by
  refine ⟨compute_w_rank_lt_two 2147483648 (by norm_num) determinant context X hX hr, ?_⟩
  apply dim_neg
  unfold static_cast_int
  rw [static_cast_int_w_of_range] <;> omega

/-- C2, at the rank-1 tensor `X_vector`. -/
theorem C2_rank_below_two_rejected_witness :
    X_vector.shape.length < 2 ∧
    Det.Compute det_int (context_of X_vector) =
      .ok (.failure .ONNXRUNTIME .INVALID_ARGUMENT
        "Input tensor should have a rank of at least 2", context_of X_vector) :=
  ⟨by decide,
    (C2_rank_below_two_rejected det_int (context_of X_vector) X_vector rfl (by decide)).1⟩

/-- C3.  For an input tensor of rank at least 2 whose last dimension differs
from its second-to-last dimension the kernel returns the invalid-argument
failure "Matrix dimensions are not equal. Square matrix is expected" and
leaves the context as it was. -/
theorem C3_not_square_rejected {T : Type}
    (determinant : (n : Nat) → (Fin n → Fin n → T) → T)
    (context : OpKernelContext T) (X : Tensor T) (pre : List Int) (a b : Int)
    (hX : context.Input 0 = some X) (hv : X.Valid)
    (hshape : X.shape = pre ++ [a, b]) (hne : b ≠ a) :
    Det.Compute determinant context =
      .ok (.failure .ONNXRUNTIME .INVALID_ARGUMENT
        "Matrix dimensions are not equal. Square matrix is expected", context) :=
  compute_w_not_square 2147483648 determinant context X pre a b hX hshape
    (by exact_mod_cast hv.1) hne

/-- C3, at the 2 by 3 tensor `X_not_square`. -/
theorem C3_not_square_rejected_witness :
    X_not_square.Valid ∧
    Det.Compute det_int (context_of X_not_square) =
      .ok (.failure .ONNXRUNTIME .INVALID_ARGUMENT
        "Matrix dimensions are not equal. Square matrix is expected",
        context_of X_not_square) :=
  ⟨by decide,
    C3_not_square_rejected det_int (context_of X_not_square) X_not_square [] 2 3 rfl
      (by decide) rfl (by decide)⟩

/-- C4.  For an input tensor of shape `[M, M]` the kernel returns success and,
in the context it leaves behind, output 0 is bound to a scalar: its shape has
no dimension, it has exactly one element, and that element is the determinant
of the `M` by `M` matrix `A` whose entry `(i, j)` is element `i * M + j` of the
input buffer. -/
theorem C4_rank2_scalar_determinant {T : Type}
    (determinant : (n : Nat) → (Fin n → Fin n → T) → T)
    (context : OpKernelContext T) (X : Tensor T) (M : Nat)
    (hX : context.Input 0 = some X) (hv : X.Valid)
    (hshape : X.shape = [(M : Int), (M : Int)]) :
    ∃ (A : Fin M → Fin M → T) (Y : Tensor (Option T)) (context' : OpKernelContext T),
      (∀ i j, X.data[i.val * M + j.val]? = some (A i j)) ∧
      Det.Compute determinant context = .ok (Status.OK, context') ∧
      context'.outputs 0 = some Y ∧
      context' = context.with_output 0 Y ∧
      Y.shape = [] ∧ TensorShape.Size Y.shape = 1 ∧ Y.data.length = 1 ∧
      Y.data = [some (determinant M A)] := by
  obtain ⟨hl, hM⟩ := valid_square_dim X M hshape hv
  obtain ⟨A, hA, h⟩ := compute_w_rank2 2147483648 determinant context X M hX hshape hl
    (by norm_num) (by exact_mod_cast hM)
  refine ⟨A, ⟨[], [some (determinant M A)]⟩, _, hA, h, ?_, rfl, rfl, rfl, rfl, rfl⟩
  simp [OpKernelContext.with_output]

/-- C4, at the 2 by 2 tensor `X_square`. -/
theorem C4_rank2_scalar_determinant_witness :
    X_square.Valid ∧
    ∃ (A : Fin 2 → Fin 2 → Int) (Y : Tensor (Option Int))
      (context' : OpKernelContext Int),
      (∀ i j, X_square.data[i.val * 2 + j.val]? = some (A i j)) ∧
      Det.Compute det_int (context_of X_square) = .ok (Status.OK, context') ∧
      context'.outputs 0 = some Y ∧
      context' = (context_of X_square).with_output 0 Y ∧
      Y.shape = [] ∧ TensorShape.Size Y.shape = 1 ∧ Y.data.length = 1 ∧
      Y.data = [some (det_int 2 A)] :=
  ⟨by decide,
    C4_rank2_scalar_determinant det_int (context_of X_square) X_square 2 rfl (by decide) rfl⟩

/-- C6.  Whenever the kernel returns a non-success status, the kernel context
after the call is the context before the call: output 0 has been neither
requested nor written, and no other slot has changed. -/
theorem C6_failure_leaves_context {T : Type}
    (determinant : (n : Nat) → (Fin n → Fin n → T) → T)
    (context context' : OpKernelContext T) (st : Status)
    (h : Det.Compute determinant context = .ok (st, context'))
    (hst : st.IsOK = false) :
    context' = context ∧ context'.outputs 0 = context.outputs 0 := by
  rcases compute_w_status_frame 2147483648 determinant context st context' h with
    ⟨hc, _⟩ | ⟨hok, _⟩
  · exact ⟨hc, by rw [hc]⟩
  · rw [hok] at hst
    exact absurd hst (by decide)

/-- C6, at the failing call on the rank-1 tensor `X_vector`. -/
theorem C6_failure_leaves_context_witness :
    Det.Compute det_int (context_of X_vector) =
      .ok (.failure .ONNXRUNTIME .INVALID_ARGUMENT
        "Input tensor should have a rank of at least 2", context_of X_vector) ∧
    (context_of X_vector = context_of X_vector ∧
      (context_of X_vector).outputs 0 = (context_of X_vector).outputs 0) :=
  ⟨rfl,
    C6_failure_leaves_context det_int (context_of X_vector) (context_of X_vector)
      (.failure .ONNXRUNTIME .INVALID_ARGUMENT
        "Input tensor should have a rank of at least 2") rfl rfl⟩

/-- C8 as stated fails: on the rank-1 tensor `X_vector` the kernel returns a
non-success status whose kind is invalid-argument, not runtime-failure. -/
theorem C8_counterexample_invalid_argument :
    ∃ st context', Det.Compute det_int (context_of X_vector) = .ok (st, context') ∧
      st.IsOK = false ∧ ¬ ∃ category msg, st = .failure category .RUNTIME_FAILURE msg :=
  ⟨.failure .ONNXRUNTIME .INVALID_ARGUMENT "Input tensor should have a rank of at least 2",
    context_of X_vector, rfl, rfl, by simp⟩

/-- C8 (amended).  Every non-success status the kernel returns is an
invalid-argument failure. -/
theorem C8_failure_is_invalid_argument {T : Type}
    (determinant : (n : Nat) → (Fin n → Fin n → T) → T)
    (context context' : OpKernelContext T) (st : Status)
    (h : Det.Compute determinant context = .ok (st, context'))
    (hst : st.IsOK = false) :
    ∃ msg, st = .failure .ONNXRUNTIME .INVALID_ARGUMENT msg := by
  rcases compute_w_status_frame 2147483648 determinant context st context' h with
    ⟨_, hmsg⟩ | ⟨hok, _⟩
  · exact hmsg
  · rw [hok] at hst
    exact absurd hst (by decide)

/-- C8 (amended), at the failing call on the 2 by 3 tensor `X_not_square`. -/
theorem C8_failure_is_invalid_argument_witness :
    Det.Compute det_int (context_of X_not_square) =
      .ok (.failure .ONNXRUNTIME .INVALID_ARGUMENT
        "Matrix dimensions are not equal. Square matrix is expected",
        context_of X_not_square) ∧
    ∃ msg, Status.failure .ONNXRUNTIME .INVALID_ARGUMENT
        "Matrix dimensions are not equal. Square matrix is expected"
      = .failure .ONNXRUNTIME .INVALID_ARGUMENT msg :=
  ⟨rfl,
    C8_failure_is_invalid_argument det_int (context_of X_not_square)
      (context_of X_not_square)
      (.failure .ONNXRUNTIME .INVALID_ARGUMENT
        "Matrix dimensions are not equal. Square matrix is expected") rfl rfl⟩

/-- C1 fails on the code: `X_empty_batch_dim` is a valid tensor of shape
`[1, 0, 1, 1]`, so of rank at least 2 with equal last two dimensions, and the
kernel has no defined result on it, a success status included: the batched
branch reads a 1 by 1 matrix from the input buffer, which has no element. -/
theorem C1_square_input_without_defined_result :
    X_empty_batch_dim.Valid ∧ X_empty_batch_dim.shape = [1, 0] ++ [1, 1] ∧
    X_empty_batch_dim.data = [] ∧
    observe (Det.Compute det_int (context_of X_empty_batch_dim))
      = .error .out_of_bounds :=
  ⟨by decide, rfl, rfl, rfl⟩

/-- C5 as stated fails: `X_wide` is a valid tensor of shape `[2^32, 0, 0]`, the
kernel returns success on it, and output 0 has the shape `[0]`, not `[2^32]`:
`static_cast<int>` has narrowed the batch size to 0. -/
theorem C5_counterexample_narrowed_batch :
    X_wide.Valid ∧ X_wide.shape = (4294967296 : Int) :: ([] ++ [0, 0]) ∧
    observe (Det.Compute det_int (context_of X_wide)) = .ok (Status.OK, some ([0], [])) ∧
    ([0] : List Int) ≠ [4294967296] :=
  ⟨by decide, rfl, rfl, by decide⟩

/-- C5 (amended).  Take a valid input tensor of shape `d0 :: mid ++ [M, M]` that
holds exactly `d0 * M * M` elements (as every input of rank 3 does), with `d0`
inside the range of a 32-bit `int` and such that the `int` products of the
kernel, `matrix_dim * matrix_dim` and `b * (matrix_dim * matrix_dim)` for
`b < d0`, do not overflow, where `matrix_dim = static_cast<int>(M)`.  Then the
kernel returns success and, in the context it leaves behind, output 0 is bound
to a tensor of shape `[d0]` whose elements are, in increasing order of `b`, the
determinants of the `M` by `M` matrices `A b`, entry `(r, c)` of `A b` being
element `b * (M * M) + r * M + c` of the input buffer. -/
theorem C5_batched_determinants {T : Type}
    (determinant : (n : Nat) → (Fin n → Fin n → T) → T)
    (context : OpKernelContext T) (X : Tensor T) (d0 M : Nat) (mid : List Int)
    (matrix_dim : Int)
    (hX : context.Input 0 = some X) (hv : X.Valid)
    (hshape : X.shape = (d0 : Int) :: (mid ++ [(M : Int), (M : Int)]))
    (hcount : X.data.length = d0 * (M * M))
    (hd0 : d0 < 2147483648)
    (hdim : matrix_dim = static_cast_int (M : Int))
    (hsq : matrix_dim * matrix_dim < 2147483648)
    (hoffs : ∀ b, b < d0 → (b : Int) * (matrix_dim * matrix_dim) < 2147483648) :
    ∃ (context' : OpKernelContext T) (Y : Tensor (Option T))
      (A : Fin d0 → Fin M → Fin M → T),
      Det.Compute determinant context = .ok (Status.OK, context') ∧
      context'.outputs 0 = some Y ∧
      context' = context.with_output 0 Y ∧
      Y.shape = [(d0 : Int)] ∧ Y.data.length = d0 ∧
      (∀ (b : Fin d0) (r c : Fin M),
        X.data[b.val * (M * M) + (r.val * M + c.val)]? = some (A b r c)) ∧
      Y.data = List.ofFn (fun b => some (determinant M (A b))) := by
  rw [hdim] at hsq hoffs
  unfold static_cast_int at hsq hoffs
  have hlen : ((X.shape.length : Nat) : Int) < 2147483648 := by exact_mod_cast hv.1
  have hd0' : ((d0 : Nat) : Int) < 2147483648 := by exact_mod_cast hd0
  have hM : 0 < d0 → ((M : Nat) : Int) < 2147483648 := by
    intro hd
    have := valid_matrix_dim_lt X d0 M hv hcount hd
    exact_mod_cast this
  have hbuf : d0 * (M * M) ≤ X.data.length := by omega
  obtain ⟨Y_buf, h, hl, hval⟩ := compute_w_batched 2147483648 determinant context X d0 M mid
    hX hshape hlen hd0' hsq hoffs hM hbuf
  choose A hA using hval
  refine ⟨_, ⟨[(d0 : Int)], Y_buf⟩, fun b => A b.val b.isLt, h, ?_, rfl, rfl, hl,
    fun b r c => (hA b.val b.isLt).1 r c, ?_⟩
  · simp [OpKernelContext.with_output]
  · exact list_eq_ofFn Y_buf d0 _ hl (fun b => (hA b.val b.isLt).2)

/-- C5 (amended), at the batch `X_batch` of two 2 by 2 matrices. -/
theorem C5_batched_determinants_witness :
    X_batch.Valid ∧
    ∃ (context' : OpKernelContext Int) (Y : Tensor (Option Int))
      (A : Fin 2 → Fin 2 → Fin 2 → Int),
      Det.Compute det_int (context_of X_batch) = .ok (Status.OK, context') ∧
      context'.outputs 0 = some Y ∧
      context' = (context_of X_batch).with_output 0 Y ∧
      Y.shape = [2] ∧ Y.data.length = 2 ∧
      (∀ (b : Fin 2) (r c : Fin 2),
        X_batch.data[b.val * (2 * 2) + (r.val * 2 + c.val)]? = some (A b r c)) ∧
      Y.data = List.ofFn (fun b => some (det_int 2 (A b))) :=
  ⟨by decide,
    C5_batched_determinants det_int (context_of X_batch) X_batch 2 2 [] 2 rfl (by decide)
      rfl rfl (by decide) (by decide) (by decide) (by intro b hb; omega)⟩

/-- C7 as stated fails: `X_wide_one` is a valid tensor of shape
`[2^32 + 1, 0, 0]`, the kernel returns success on it, and it has written one
element of output 0, not `2^32 + 1`. -/
theorem C7_counterexample_one_element :
    X_wide_one.Valid ∧ X_wide_one.shape = [4294967297, 0, 0] ∧
    observe_written (Det.Compute det_int (context_of X_wide_one))
      = .ok (Status.OK, some 1) ∧
    (1 : Int) ≠ 4294967297 :=
  ⟨by decide, rfl, rfl, by decide⟩

/-- C7 (amended).  On every successful call on a valid input tensor the kernel
has changed output 0 and nothing else: the input slots (shape and data of the
input tensor included) and every other output slot are as before.  It has
written every element of output 0, one per determinant computed: one element
for an input of rank 2, and `static_cast<int>(d0)` elements for an input of
rank at least 3, which is `d0` elements whenever `d0` fits a 32-bit `int`. -/
theorem C7_success_writes_output0_only {T : Type}
    (determinant : (n : Nat) → (Fin n → Fin n → T) → T)
    (context context' : OpKernelContext T) (X : Tensor T)
    (hX : context.Input 0 = some X) (hv : X.Valid)
    (h : Det.Compute determinant context = .ok (Status.OK, context')) :
    context'.inputs = context.inputs ∧
    (∀ i, i ≠ 0 → context'.outputs i = context.outputs i) ∧
    ∃ Y, context'.outputs 0 = some Y ∧ written Y = Y.data.length ∧
      (X.shape.length = 2 → written Y = 1) ∧
      (∀ d0 rest, X.shape = d0 :: rest → 3 ≤ X.shape.length →
        written Y = (static_cast_int d0).toNat ∧
        (d0 < 2147483648 → written Y = d0.toNat)) := by
  have hlen : ((X.shape.length : Nat) : Int) < 2147483648 := by exact_mod_cast hv.1
  rcases compute_w_returns_cases 2147483648 (by norm_num) determinant context X hX hlen
      _ _ h with ⟨_, _, hst⟩ | ⟨_, _, _, _, _, _, hst⟩ | ⟨M, v, hs, _, hc⟩ |
      ⟨d0, mid, M, Y_buf, hs, _, hc, hnn, hl, hall⟩
  · exact absurd hst (by simp)
  · exact absurd hst (by simp)
  · subst hc
    refine ⟨rfl, ?_, ⟨[], [some v]⟩, ?_, rfl, fun _ => rfl, ?_⟩
    · intro i hi
      simp [OpKernelContext.with_output, Function.update_noteq hi]
    · simp [OpKernelContext.with_output]
    · intro d0 rest _ h3
      rw [hs] at h3
      simp at h3
  · subst hc
    have hw : written (⟨[static_cast_int_w 2147483648 d0], Y_buf⟩ : Tensor (Option T))
        = Y_buf.length := written_all Y_buf hall
    refine ⟨rfl, ?_, ⟨[static_cast_int_w 2147483648 d0], Y_buf⟩, ?_, hw, ?_, ?_⟩
    · intro i hi
      simp [OpKernelContext.with_output, Function.update_noteq hi]
    · simp [OpKernelContext.with_output]
    · intro h2
      rw [hs] at h2
      simp at h2
    · intro d0' rest hs' _
      rw [hs] at hs'
      have hd : d0 = d0' := (List.cons.inj hs').1
      subst hd
      unfold static_cast_int
      refine ⟨by rw [hw, hl], ?_⟩
      intro hlt
      have hd0nn : 0 ≤ d0 := (hv.2.1 d0 (by rw [hs]; simp)).1
      rw [hw, hl, static_cast_int_w_of_range 2147483648 d0 (by omega) hlt]

/-- C7 (amended), at the successful call on the batch `X_batch`. -/
theorem C7_success_writes_output0_only_witness :
    X_batch.Valid ∧
    ∃ context' Y, Det.Compute det_int (context_of X_batch) = .ok (Status.OK, context') ∧
      context'.inputs = (context_of X_batch).inputs ∧
      context'.outputs 0 = some Y ∧ written Y = 2 := by
  refine ⟨by decide, ?_⟩
  obtain ⟨Y_buf, h, _, _⟩ := compute_w_batched 2147483648 det_int (context_of X_batch)
    X_batch 2 2 [] rfl rfl (by decide) (by decide) (by decide)
    (by intro b hb; have h2 : static_cast_int_w 2147483648 ((2 : Nat) : Int) = 2 := by decide
        rw [h2]; omega)
    (by intro _; decide) (by decide)
  obtain ⟨hin, _, Y, hY, _, _, hcount⟩ :=
    C7_success_writes_output0_only det_int (context_of X_batch) _ X_batch rfl
      (by decide) h
  exact ⟨_, Y, h, hin, hY, ((hcount 2 [2, 2] rfl (by decide)).2 (by decide))⟩

/-- C9 fails on the code: `X_two_batch_dims` is a valid tensor of shape
`[2, 3, 2, 2]`, it holds `2 * 3 = 6` matrices of 2 by 2, and the kernel returns
success with an output 0 of shape `[2]` that has 2 elements: the output
element count times `2 * 2` is 8, not the 24 elements of the input. -/
theorem C9_two_batch_dims_two_determinants :
    X_two_batch_dims.Valid ∧ X_two_batch_dims.shape = [2, 3] ++ [2, 2] ∧
    X_two_batch_dims.data.length = 24 ∧ ([2, 3] : List Int).prod = 6 ∧
    observe_extent (Det.Compute det_int (context_of X_two_batch_dims))
      = .ok (Status.OK, some ([2], 2)) ∧
    2 * (2 * 2) ≠ X_two_batch_dims.data.length :=
  ⟨by decide, rfl, rfl, rfl, rfl, by decide⟩

/-- C10 fails on the code: `X_empty_batch_dim` is a valid tensor of shape
`[1, 0, 1, 1]` (rank 4, last two dimensions 1, and `M * M = d0 * M * M = 1`
fits a 32-bit `int`) that has no element.  For `b = 0` the range
`[b * M * M, (b + 1) * M * M)` is `[0, 1)`, which is not inside the input; the
kernel computes `num_matrix_elems = 1` and the offset `0 * 1 = 0` and reads the
1 by 1 matrix at offset 0 all the same, an access outside the buffer. -/
theorem C10_reads_outside_empty_input :
    X_empty_batch_dim.Valid ∧ X_empty_batch_dim.shape = (1 : Int) :: ([0] ++ [1, 1]) ∧
    X_empty_batch_dim.data.length = 0 ∧
    ¬ ((0 + 1) * (1 * 1) ≤ X_empty_batch_dim.data.length) ∧
    int_mul 1 1 = .ok 1 ∧ int_mul 0 1 = .ok 0 ∧
    get_determinant det_int X_empty_batch_dim.data 1 0 = .error .out_of_bounds ∧
    observe (Det.Compute det_int (context_of X_empty_batch_dim))
      = .error .out_of_bounds :=
  ⟨by decide, rfl, rfl, by decide, rfl, rfl, rfl, rfl⟩

end onnxruntime
